import Mathlib

/-!
Verification of the geojson library (Go) against its specification.

The Go source is embedded shallowly:
* `float64` values are modelled as exact rationals (`ℚ`); the library only
  compares, adds, multiplies and negates coordinate values, and every concrete
  input considered here is exactly representable in binary64, so the algebraic
  structure of the code is preserved.
* Go slices become `List`s, struct receivers become explicit arguments, and
  in-place mutation (e.g. `slices.Reverse`) becomes a returned value.
* fallible constructors (`func ... (T, error)`) become `Except GeoErr T` where
  `GeoErr` enumerates the library's sentinel error values.
-/

namespace GeoJson

/-- Go: `type Coordinates []float64` (coordinates.go). -/
abbrev Coordinates := List ℚ

/-- Go: `type Vertices []Coordinates`. -/
abbrev Vertices := List Coordinates

/-- Go: `type LinearRing Vertices` (linear_ring.go). -/
abbrev LinearRing := Vertices

/-- Go: `type LinearRings []LinearRing`. -/
abbrev LinearRings := List LinearRing

/-- Go: `type Segments []Vertices`. -/
abbrev Segments := List Vertices

/-- Go: `type BoundingBox []float64`. -/
abbrev BoundingBox := List ℚ

/-- The sentinel error values of the library (coordinates.go, linear_ring.go,
polygon.go, line_string.go, multi_line_string.go, geometry_collection.go,
object.go). -/
inductive GeoErr where
  | CoordinatesSize
  | LongitudeRange
  | LatitudeRange
  | InvalidCoordinates
  | InvalidTypeField
  | LineStringTooShort
  | MultiLineStringTooShort
  | PolygonLinearRingCount
  | LinearRingSize
  | LinearRingClosed
  | GeometryCollectionBuildCoordinates
  | InvalidFeature
  deriving DecidableEq, Repr

/-- Go: `LongitudeMin float64 = -180`. -/
def LongitudeMin : ℚ := -180

/-- Go: `LongitudeMax float64 = 180`. -/
def LongitudeMax : ℚ := 180

/-- Go: `LatitudeMin float64 = -90`. -/
def LatitudeMin : ℚ := -90

/-- Go: `LatitudeMax float64 = 90`. -/
def LatitudeMax : ℚ := 90

/-- Go: `coordsMinLen = 2`. -/
def coordsMinLen : Nat := 2

/-- Go: `coordsMaxLen = 3`. -/
def coordsMaxLen : Nat := 3

/-- Go: `math.MaxFloat64`, the largest finite binary64 value
`(2^53 - 1) * 2^971`, as an exact rational written out in decimal so that it
evaluates cheaply in the kernel. -/
def maxFloat64 : ℚ := 179769313486231570814527423731704356798070567525844996598917476803157260780028538760589558632766878171540458953514382464234321326889464182768467546703537516986049910576551282076245490090389328944075868508455133942304583236903222948165808559332123348274797826204144723168738177180919299881250404026184124858368

/-- Go: `(c *Coordinates) Longitude()` returns `(*c)[idxCoordsLng]` (index 0). -/
def Longitude (c : Coordinates) : ℚ := c.getD 0 0

/-- Go: `(c *Coordinates) Latitude()` returns `(*c)[idxCoordsLat]` (index 1). -/
def Latitude (c : Coordinates) : ℚ := c.getD 1 0

/-- Go: `(c *Coordinates) HasAltitude()` is `len(*c) == coordsMaxLen`. -/
def HasAltitude (c : Coordinates) : Bool := c.length == coordsMaxLen

/-- Go: `(c *Coordinates) Altitude()` returns `(*c)[idxCoordsAlt]` (index 2). -/
def Altitude (c : Coordinates) : ℚ := c.getD 2 0

/-- Go: `(c *Coordinates) IsEqual(v)` is `slices.Compare(*c, v) == 0`. -/
def IsEqualCoords (c v : Coordinates) : Bool := c == v

/-- Go: `validateCoordinates(longitude, latitude float64) error`
(coordinates.go). -/
def validateCoordinates (longitude latitude : ℚ) : Except GeoErr Unit :=
  if longitude < LongitudeMin ∨ longitude > LongitudeMax then .error .LongitudeRange
  else if latitude < LatitudeMin ∨ latitude > LatitudeMax then .error .LatitudeRange
  else .ok ()

/-- Go: `NewCoordinates(v []float64) (*Coordinates, error)` (coordinates.go).
The Go code copies the first two entries, validates them, then copies the
altitude when present; the successful result equals the input slice. -/
def NewCoordinates (v : List ℚ) : Except GeoErr Coordinates :=
  if v.length ≠ coordsMinLen ∧ v.length ≠ coordsMaxLen then .error .CoordinatesSize
  else
    match validateCoordinates (v.getD 0 0) (v.getD 1 0) with
    | .error e => .error e
    | .ok _ => .ok v

/-- Go: `LinearRingMinimumSize = 4`. -/
def LinearRingMinimumSize : Nat := 4

/-- Go: `(lr *LinearRing) HasValidSize()` is `len(*lr) >= LinearRingMinimumSize`. -/
def HasValidSize (lr : LinearRing) : Bool := decide (lr.length ≥ LinearRingMinimumSize)

/-- Go: `(lr *LinearRing) IsClosed()`: false on the empty ring, else first and
last vertices are `IsEqual`. -/
def IsClosed (lr : LinearRing) : Bool :=
  match lr.head?, lr.getLast? with
  | some first, some last => IsEqualCoords first last
  | _, _ => false

/-- The loop body of Go's `signedArea`: `x1*y2 - x2*y1` for one consecutive
vertex pair. -/
def cross (a b : Coordinates) : ℚ :=
  Longitude a * Latitude b - Longitude b * Latitude a

/-- The loop inside Go's `signedArea` (linear_ring.go): the sum of
`x_i * y_{i+1} - x_{i+1} * y_i` over consecutive vertex pairs. -/
def shoelaceSum : List Coordinates → ℚ
  | a :: b :: rest => cross a b + shoelaceSum (b :: rest)
  | _ => 0

/-- Go: `signedArea(ring LinearRing) float64`, the shoelace sum times `0.5`. -/
def signedArea (ring : LinearRing) : ℚ := shoelaceSum ring * (1 / 2)

/-- Go: `(lr *LinearRing) IsCounterClockwise()` is `signedArea(*lr) > 0`. -/
def IsCounterClockwise (lr : LinearRing) : Bool := decide (signedArea lr > 0)

/-- Go: `(lr *LinearRing) IsClockwise()` is `!lr.IsCounterClockwise()`. -/
def IsClockwise (lr : LinearRing) : Bool := ! IsCounterClockwise lr

/-- Go: `(lr *LinearRing) Area()` is `math.Abs(signedArea(*lr))`. -/
def Area (lr : LinearRing) : ℚ := |signedArea lr|

/-- Go: `(lr *LinearRing) EnsureOrientation(shouldBeCounterClockwise bool)`:
reverses the ring iff the current orientation disagrees with the requested
one. The Go method mutates in place; here the resulting ring is returned. -/
def EnsureOrientation (shouldBeCounterClockwise : Bool) (lr : LinearRing) : LinearRing :=
  if shouldBeCounterClockwise == IsCounterClockwise lr then lr else lr.reverse

/-- Go: `NewLinearRing(vertices Vertices) (*LinearRing, error)`. -/
def NewLinearRing (vertices : Vertices) : Except GeoErr LinearRing :=
  if ¬ HasValidSize vertices then .error .LinearRingSize
  else if ¬ IsClosed vertices then .error .LinearRingClosed
  else .ok vertices

/-- Go: `type Polygon struct { rings LinearRings; SerializeBBox bool }`.
`SerializeBBox` is a serialization toggle, not geometry data, and is omitted. -/
structure Polygon where
  rings : LinearRings
  deriving DecidableEq, Repr

/-- Go: `type MultiPolygon struct { rings []LinearRings; SerializeBBox bool }`. -/
structure MultiPolygon where
  rings : List LinearRings
  deriving DecidableEq, Repr

/-- Go: `type LineString struct { vertices Vertices; SerializeBBox bool }`. -/
structure LineString where
  vertices : Vertices
  deriving DecidableEq, Repr

/-- Go: `LineStringMinimumSize = 2`. -/
def LineStringMinimumSize : Nat := 2

/-- Go: `NewLineString(v Vertices) (*LineString, error)` (line_string.go): only
the vertex count is checked, the individual coordinates are not validated. -/
def NewLineString (v : Vertices) : Except GeoErr LineString :=
  if v.length < LineStringMinimumSize then .error .LineStringTooShort
  else .ok ⟨v⟩

/-- Go: `ensureOrientation(rings LinearRings)` (polygon.go): the first ring is
forced counterclockwise, all later rings are forced clockwise. -/
def ensureOrientation (rings : LinearRings) : LinearRings :=
  match rings with
  | [] => []
  | r0 :: rest => EnsureOrientation true r0 :: rest.map (EnsureOrientation false)

/-- The per-ring validation loop shared by Go's `NewPolygon` and
`NewMultiPolygonFromRingSlice`: for each ring, first the size check, then the
closure check, stopping at the first failure. -/
def validateRings : LinearRings → Except GeoErr Unit
  | [] => .ok ()
  | ring :: rest =>
    if ¬ HasValidSize ring then .error .LinearRingSize
    else if ¬ IsClosed ring then .error .LinearRingClosed
    else validateRings rest

/-- Go: `NewPolygon(rings LinearRings) (*Polygon, error)` (polygon.go). -/
def NewPolygon (rings : LinearRings) : Except GeoErr Polygon :=
  if rings.length = 0 then .error .PolygonLinearRingCount
  else
    match validateRings rings with
    | .error e => .error e
    | .ok _ => .ok ⟨ensureOrientation rings⟩

/-- The loop of Go's `NewMultiPolygonFromRingSlice` (multi_polygon.go): each
ring group is validated and reoriented in turn; empty groups are accepted. -/
def orientGroups : List LinearRings → Except GeoErr (List LinearRings)
  | [] => .ok []
  | g :: gs =>
    match validateRings g with
    | .error e => .error e
    | .ok _ =>
      match orientGroups gs with
      | .error e => .error e
      | .ok rest => .ok (ensureOrientation g :: rest)

/-- Go: `NewMultiPolygonFromRingSlice(slice []LinearRings) (*MultiPolygon, error)`. -/
def NewMultiPolygonFromRingSlice (slice : List LinearRings) : Except GeoErr MultiPolygon :=
  match orientGroups slice with
  | .error e => .error e
  | .ok gs => .ok ⟨gs⟩

/-- The closed geometry variant set (spec §3): Go expresses it as the
`Geometry` interface implemented by exactly the seven concrete structs. -/
inductive Geom where
  | point (coords : Coordinates)
  | lineString (vertices : Vertices)
  | multiPoint (vertices : Vertices)
  | multiLineString (segments : Segments)
  | polygon (rings : LinearRings)
  | multiPolygon (rings : List LinearRings)
  | collection (geometries : List Geom)

mutual

/-- The variant-specific `Vertices()` flattening of each Go geometry struct. -/
def Geom.verts : Geom → Vertices
  | .point c => [c]
  | .lineString vs => vs
  | .multiPoint vs => vs
  | .multiLineString segs => segs.foldl (fun v s => v ++ s) []
  | .polygon rings => rings.foldl (fun v s => v ++ s) []
  | .multiPolygon rs => rs.foldl (fun v seg => seg.foldl (fun w r => w ++ r) v) []
  | .collection gs => Geom.vertsList gs

/-- Go `GeometryCollection.Vertices()`: concatenation of the children's
vertices in order. -/
def Geom.vertsList : List Geom → Vertices
  | [] => []
  | g :: gs => Geom.verts g ++ Geom.vertsList gs

end

/-- The untyped document tree the external codec hands to the coordinate
builders: Go `interface{}` holding numbers (`float64`/`int`), nested
`[]interface{}`, JSON null, or anything else. -/
inductive Raw where
  | num (q : ℚ)
  | arr (elems : List Raw)
  | null
  | other

/-- The number branch of Go `buildCoordinates`: `float64` and `int` are
accepted, anything else is `ErrInvalidCoordinates`. -/
def rawNumber : Raw → Except GeoErr ℚ
  | .num q => .ok q
  | _ => .error .InvalidCoordinates

/-- The element-conversion loop of Go `buildCoordinates`: first failure wins. -/
def rawNumbers : List Raw → Except GeoErr (List ℚ)
  | [] => .ok []
  | r :: rs =>
    match rawNumber r with
    | .error e => .error e
    | .ok q =>
      match rawNumbers rs with
      | .error e => .error e
      | .ok qs => .ok (q :: qs)

/-- Go: package-level `buildCoordinates(v interface{}) (*Coordinates, error)`
(coordinates.go): slice check, size check, element conversion, then
`NewCoordinates`. -/
def buildCoordinates (v : Raw) : Except GeoErr Coordinates :=
  match v with
  | .arr rawSlice =>
    if rawSlice.length ≠ coordsMinLen ∧ rawSlice.length ≠ coordsMaxLen then
      .error .CoordinatesSize
    else
      match rawNumbers rawSlice with
      | .error e => .error e
      | .ok slice => NewCoordinates slice
  | _ => .error .InvalidCoordinates

/-- Go: `(p *Point) buildCoordinates(v interface{})`: asserts the slice shape,
then delegates to the package-level `buildCoordinates`. -/
def pointBuild (v : Raw) : Except GeoErr Coordinates :=
  match v with
  | .arr rawSlice => buildCoordinates (.arr rawSlice)
  | _ => .error .InvalidCoordinates

/-- The per-element loop shared by Go `LineString.buildCoordinates` and
`MultiPoint.buildCoordinates`: each entry through `Point.buildCoordinates`. -/
def verticesBuild : List Raw → Except GeoErr Vertices
  | [] => .ok []
  | s :: rest =>
    match pointBuild s with
    | .error e => .error e
    | .ok c =>
      match verticesBuild rest with
      | .error e => .error e
      | .ok vs => .ok (c :: vs)

/-- Go: `(l *LineString) buildCoordinates(v interface{})`. -/
def lineStringBuild (v : Raw) : Except GeoErr Vertices :=
  match v with
  | .arr rawSlice =>
    if rawSlice.length < LineStringMinimumSize then .error .LineStringTooShort
    else verticesBuild rawSlice
  | _ => .error .InvalidCoordinates

/-- Go: `(m *MultiPoint) buildCoordinates(v interface{})`: any count accepted. -/
def multiPointBuild (v : Raw) : Except GeoErr Vertices :=
  match v with
  | .arr rawSlice => verticesBuild rawSlice
  | _ => .error .InvalidCoordinates

/-- The per-segment loop of Go `MultiLineString.buildCoordinates`. -/
def segmentsBuild : List Raw → Except GeoErr Segments
  | [] => .ok []
  | s :: rest =>
    match lineStringBuild s with
    | .error e => .error e
    | .ok seg =>
      match segmentsBuild rest with
      | .error e => .error e
      | .ok segs => .ok (seg :: segs)

/-- Go: `(m *MultiLineString) buildCoordinates(v interface{})`. -/
def multiLineStringBuild (v : Raw) : Except GeoErr Segments :=
  match v with
  | .arr rawSlice =>
    if rawSlice.length = 0 then .error .MultiLineStringTooShort
    else segmentsBuild rawSlice
  | _ => .error .InvalidCoordinates

/-- The per-vertex loop of one ring inside Go `Polygon.buildCoordinates`:
each entry through the package-level `buildCoordinates`. -/
def ringVertices : List Raw → Except GeoErr Vertices
  | [] => .ok []
  | rv :: rest =>
    match buildCoordinates rv with
    | .error e => .error e
    | .ok c =>
      match ringVertices rest with
      | .error e => .error e
      | .ok vs => .ok (c :: vs)

/-- One iteration of the ring loop inside Go `Polygon.buildCoordinates`:
slice check, vertex building, then `NewLinearRing`. -/
def ringBuild (r : Raw) : Except GeoErr LinearRing :=
  match r with
  | .arr rawRing =>
    match ringVertices rawRing with
    | .error e => .error e
    | .ok ring => NewLinearRing ring
  | _ => .error .InvalidCoordinates

/-- The ring loop of Go `Polygon.buildCoordinates`. -/
def ringsBuild : List Raw → Except GeoErr LinearRings
  | [] => .ok []
  | r :: rest =>
    match ringBuild r with
    | .error e => .error e
    | .ok ring =>
      match ringsBuild rest with
      | .error e => .error e
      | .ok rings => .ok (ring :: rings)

/-- Go: `(p *Polygon) buildCoordinates(v interface{})` (polygon.go): builds all
rings, rejects an empty ring list, then reorients the rings in place. The
model returns the resulting ring list. -/
def polygonBuild (v : Raw) : Except GeoErr LinearRings :=
  match v with
  | .arr rawSlice =>
    match ringsBuild rawSlice with
    | .error e => .error e
    | .ok rings =>
      if rings.length = 0 then .error .PolygonLinearRingCount
      else .ok (ensureOrientation rings)
  | _ => .error .InvalidCoordinates

/-- The per-group loop of Go `MultiPolygon.buildCoordinates`: each group
through a fresh `Polygon.buildCoordinates`. -/
def polygonGroupsBuild : List Raw → Except GeoErr (List LinearRings)
  | [] => .ok []
  | s :: rest =>
    match polygonBuild s with
    | .error e => .error e
    | .ok g =>
      match polygonGroupsBuild rest with
      | .error e => .error e
      | .ok gs => .ok (g :: gs)

/-- Go: `(m *MultiPolygon) buildCoordinates(v interface{})`: zero groups are
accepted. -/
def multiPolygonBuild (v : Raw) : Except GeoErr (List LinearRings) :=
  match v with
  | .arr rawSlice => polygonGroupsBuild rawSlice
  | _ => .error .InvalidCoordinates

/-- Go: `(g *GeometryCollection) buildCoordinates(_ interface{})`
(geometry_collection.go): unconditionally the dedicated error. -/
def geometryCollectionBuildCoordinates (_ : Raw) : Except GeoErr Unit :=
  .error .GeometryCollectionBuildCoordinates

/-- Go: `geometryJSONInput` as filled by the generic codec from one geometry
document node: the `type` tag (missing tag decodes to `""`), the untyped
`coordinates` tree (missing field decodes to `null`/`nil`), and the raw
`geometries` entries (missing field decodes to the empty list). -/
inductive GeomDoc where
  | mk (type : String) (coordinates : Raw) (geometries : List GeomDoc)

/-- The tag switch of Go `GeometryObject.UnmarshalJSON` (polygon.go 243-281):
each coordinate-bearing tag instantiates its variant and runs its coordinate
builder; `"GeometryCollection"` collects the already-decoded children without
invoking any builder; any other tag is `ErrInvalidTypeField`. -/
def dispatchGeom (t : String) (c : Raw) (children : List Geom) : Except GeoErr Geom :=
  if t = "Point" then
    match pointBuild c with
    | .error e => .error e
    | .ok x => .ok (.point x)
  else if t = "LineString" then
    match lineStringBuild c with
    | .error e => .error e
    | .ok x => .ok (.lineString x)
  else if t = "MultiPoint" then
    match multiPointBuild c with
    | .error e => .error e
    | .ok x => .ok (.multiPoint x)
  else if t = "MultiLineString" then
    match multiLineStringBuild c with
    | .error e => .error e
    | .ok x => .ok (.multiLineString x)
  else if t = "Polygon" then
    match polygonBuild c with
    | .error e => .error e
    | .ok x => .ok (.polygon x)
  else if t = "MultiPolygon" then
    match multiPolygonBuild c with
    | .error e => .error e
    | .ok x => .ok (.multiPolygon x)
  else if t = "GeometryCollection" then
    .ok (.collection children)
  else
    .error .InvalidTypeField

mutual

/-- Go: `GeometryObject.UnmarshalJSON`. The generic codec decodes every entry
of the `geometries` field (through this same function) before the tag switch
runs, and its first failure aborts the whole decode; the switch then
dispatches on the tag. -/
def decodeGeom : GeomDoc → Except GeoErr Geom
  | .mk t c gs =>
    match decodeGeomList gs with
    | .error e => .error e
    | .ok children => dispatchGeom t c children

/-- The codec's element-wise decoding of a `[]GeometryObject` field: first
failure wins. -/
def decodeGeomList : List GeomDoc → Except GeoErr (List Geom)
  | [] => .ok []
  | d :: ds =>
    match decodeGeom d with
    | .error e => .error e
    | .ok g =>
      match decodeGeomList ds with
      | .error e => .error e
      | .ok gs => .ok (g :: gs)

end

/-- A `Coordinates` value as the codec serializes it: an array of numbers. -/
def coordsRaw (c : Coordinates) : Raw := .arr (c.map .num)

/-- A `Vertices`/`LinearRing` value as the codec serializes it. -/
def verticesRaw (vs : Vertices) : Raw := .arr (vs.map coordsRaw)

mutual

/-- The per-variant `MarshalJSON` output (point.go, line_string.go,
multi_point.go, multi_line_string.go, polygon.go, multi_polygon.go,
geometry_collection.go) viewed as the codec's document tree: the fixed tag
and the `coordinates` payload, or the encoded children for a collection
(whose output record has no `coordinates` field, hence `null` here). -/
def encodeGeom : Geom → GeomDoc
  | .point c => .mk "Point" (coordsRaw c) []
  | .lineString vs => .mk "LineString" (verticesRaw vs) []
  | .multiPoint vs => .mk "MultiPoint" (verticesRaw vs) []
  | .multiLineString segs => .mk "MultiLineString" (.arr (segs.map verticesRaw)) []
  | .polygon rings => .mk "Polygon" (.arr (rings.map verticesRaw)) []
  | .multiPolygon rs =>
    .mk "MultiPolygon" (.arr (rs.map (fun rings => .arr (rings.map verticesRaw)))) []
  | .collection gs => .mk "GeometryCollection" .null (encodeGeomList gs)

/-- Go `GeometryCollection.MarshalJSON` serializes each child in order. -/
def encodeGeomList : List Geom → List GeomDoc
  | [] => []
  | g :: gs => encodeGeom g :: encodeGeomList gs

end

/-- A coordinate as the decode path guarantees it: 2 or 3 entries, longitude
and latitude in range (spec §3 Coordinate invariant). -/
def validCoord (c : Coordinates) : Bool :=
  (c.length == coordsMinLen || c.length == coordsMaxLen)
    && decide (LongitudeMin ≤ Longitude c) && decide (Longitude c ≤ LongitudeMax)
    && decide (LatitudeMin ≤ Latitude c) && decide (Latitude c ≤ LatitudeMax)

/-- A ring acceptable to `NewLinearRing` whose coordinates are all valid. -/
def validRing (r : LinearRing) : Bool :=
  HasValidSize r && IsClosed r && r.all validCoord

/-- A ring group already in the orientation `ensureOrientation` establishes:
outer ring strictly counterclockwise, every hole not counterclockwise. -/
def normalizedGroup (rings : LinearRings) : Bool :=
  match rings with
  | [] => true
  | r0 :: rest => IsCounterClockwise r0 && rest.all (fun r => ! IsCounterClockwise r)

/-- A polygon ring group that decodes back to itself: nonempty, all rings
valid, already normalized. -/
def validGroup (rings : LinearRings) : Bool :=
  (rings.length != 0) && rings.all validRing && normalizedGroup rings

mutual

/-- The valid geometries of spec §4.4, restricted to those the decode path can
reproduce: coordinate arity/range everywhere, minimum sizes, and polygon ring
groups nonempty and orientation-normalized with strictly counterclockwise
outer rings. -/
def validGeom : Geom → Bool
  | .point c => validCoord c
  | .lineString vs => decide (vs.length ≥ LineStringMinimumSize) && vs.all validCoord
  | .multiPoint vs => vs.all validCoord
  | .multiLineString segs =>
    (segs.length != 0)
      && segs.all (fun s => decide (s.length ≥ LineStringMinimumSize) && s.all validCoord)
  | .polygon rings => validGroup rings
  | .multiPolygon rs => rs.all validGroup
  | .collection gs => validGeomList gs

/-- Validity of every member of a collection. -/
def validGeomList : List Geom → Bool
  | [] => true
  | g :: gs => validGeom g && validGeomList gs

end

/-- The accumulator of the `bbox` loops: the running minima/maxima and the
count of altitude-bearing vertices. -/
structure BState where
  minLng : ℚ
  minLat : ℚ
  maxLng : ℚ
  maxLat : ℚ
  minAlt : ℚ
  maxAlt : ℚ
  altCount : Nat
  deriving DecidableEq, Repr

/-- The initialization both `bbox` versions use:
`minLng, minLat, maxLng, maxLat := LongitudeMax, LatitudeMax, LongitudeMin,
LatitudeMin` and `minAlt, maxAlt := math.MaxFloat64, -math.MaxFloat64`. -/
def bboxInit : BState :=
  ⟨LongitudeMax, LatitudeMax, LongitudeMin, LatitudeMin, maxFloat64, -maxFloat64, 0⟩

/-- The main loop body of the first `bbox` version (explicit `if`
comparisons, `counter3D` counter). -/
def bboxStepIf (s : BState) (v : Coordinates) : BState :=
  let s1 : BState :=
    { s with
      minLng := if Longitude v < s.minLng then Longitude v else s.minLng
      minLat := if Latitude v < s.minLat then Latitude v else s.minLat
      maxLng := if Longitude v > s.maxLng then Longitude v else s.maxLng
      maxLat := if Latitude v > s.maxLat then Latitude v else s.maxLat }
  if HasAltitude v then
    { s1 with
      altCount := s1.altCount + 1
      minAlt := if Altitude v < s1.minAlt then Altitude v else s1.minAlt
      maxAlt := if Altitude v > s1.maxAlt then Altitude v else s1.maxAlt }
  else s1

/-- The altitude-defaulting loop body of the first `bbox` version: a vertex
without altitude pulls the altitude range onto 0. -/
def bboxWidenIf (s : BState) (v : Coordinates) : BState :=
  if ¬ HasAltitude v then
    { s with
      minAlt := if 0 < s.minAlt then 0 else s.minAlt
      maxAlt := if 0 > s.maxAlt then 0 else s.maxAlt }
  else s

/-- Assembling the result list, shared by both `bbox` versions: a 3D box when
any vertex carried altitude, else a 2D box. -/
def bboxFinish (s : BState) : BoundingBox :=
  if s.altCount > 0 then [s.minLng, s.minLat, s.minAlt, s.maxLng, s.maxLat, s.maxAlt]
  else [s.minLng, s.minLat, s.maxLng, s.maxLat]

/-- The altitude-defaulting pass of the first `bbox` version: run only when
not every vertex carried altitude (`counter3D != len(vertices)`). -/
def bboxAdjustIf (vertices : Vertices) (s : BState) : BState :=
  if s.altCount ≠ vertices.length then vertices.foldl bboxWidenIf s else s

/-- The first `bbox` version in src/unnamed/part_001 (lines 49-125): explicit
`if` comparisons and a `counter3D` counter. -/
def bboxCmp (vertices : Vertices) : BoundingBox :=
  if vertices.length = 0 then []
  else bboxFinish (bboxAdjustIf vertices (vertices.foldl bboxStepIf bboxInit))

/-- Go: `updateRange(value float64, minVal, maxVal *float64)` of the second
`bbox` version, returning the updated pair. -/
def updateRange (value minVal maxVal : ℚ) : ℚ × ℚ :=
  (if value < minVal then value else minVal, if value > maxVal then value else maxVal)

/-- The main loop body of the second `bbox` version (the `updateRange` helper
and an `altitudeCount` counter). -/
def bboxStepUpd (s : BState) (v : Coordinates) : BState :=
  let lng := updateRange (Longitude v) s.minLng s.maxLng
  let lat := updateRange (Latitude v) s.minLat s.maxLat
  let s1 : BState :=
    { s with minLng := lng.1, maxLng := lng.2, minLat := lat.1, maxLat := lat.2 }
  if HasAltitude v then
    let alt := updateRange (Altitude v) s1.minAlt s1.maxAlt
    { s1 with altCount := s1.altCount + 1, minAlt := alt.1, maxAlt := alt.2 }
  else s1

/-- The altitude-defaulting loop body of the second `bbox` version:
`updateRange(0, &minAlt, &maxAlt)` for each vertex without altitude. -/
def bboxWidenUpd (s : BState) (v : Coordinates) : BState :=
  if ¬ HasAltitude v then
    let alt := updateRange 0 s.minAlt s.maxAlt
    { s with minAlt := alt.1, maxAlt := alt.2 }
  else s

/-- The altitude-defaulting pass of the second `bbox` version: run only when
not every vertex carried altitude (`altitudeCount != len(vertices)`). -/
def bboxAdjustUpd (vertices : Vertices) (s : BState) : BState :=
  if s.altCount ≠ vertices.length then vertices.foldl bboxWidenUpd s else s

/-- The second `bbox` version in src/unnamed/part_001 (lines 184-239), the one
active in the package: empty check first, then the `updateRange`-based loops. -/
def bbox (vertices : Vertices) : BoundingBox :=
  if vertices.length = 0 then []
  else bboxFinish (bboxAdjustUpd vertices (vertices.foldl bboxStepUpd bboxInit))

/-- Go: `type Feature struct { Geometry Geometry; ... }` (src/unnamed/part_002).
A nil `Geometry` interface is `none`. `Properties`, `ID` and `SerializeBBox`
are external metadata (spec §1) carried opaquely by the feature; they play no
role in the geometric claims and are omitted. -/
structure Feature where
  geometry : Option Geom

/-- Go: `type FeatureCollection struct { Features []Feature; ... }`. -/
structure FeatureCollection where
  features : List Feature

/-- Go: `featuresJSONInput` as filled by the generic codec from a top-level
document: the `type` tag, the decoded `geometry` field (`none` when the field
is absent or JSON null, since either leaves the `*GeometryObject` pointer
nil), and the decoded `features` entries. -/
structure FeaturesInput where
  type : String
  geometry : Option Geom
  features : List Feature

/-- Go: `type Object struct { featureType ObjectType; feature *Feature;
features *FeatureCollection }` (object.go). -/
structure Obj where
  featureType : String
  feature : Option Feature
  features : Option FeatureCollection

/-- Go: `(f *Feature) Vertices()`: nil for an absent geometry, else the
geometry's flattened vertices. -/
def Feature.vertices (f : Feature) : Vertices :=
  match f.geometry with
  | none => []
  | some g => Geom.verts g

/-- Go: `(f *Feature) BoundingBox()` is `bbox(f.Vertices())`. -/
def Feature.boundingBox (f : Feature) : BoundingBox := bbox f.vertices

/-- Go: `(o *Object) UnmarshalJSON` after the generic parse (object.go 74-101):
a nil geometry pointer is replaced by the empty envelope, then the tag switch
builds a Feature or FeatureCollection, anything else is `ErrInvalidFeature`. -/
def Obj.unmarshal (inp : FeaturesInput) : Except GeoErr Obj :=
  if inp.type = "Feature" then
    .ok { featureType := inp.type, feature := some { geometry := inp.geometry }, features := none }
  else if inp.type = "FeatureCollection" then
    .ok { featureType := inp.type, feature := none, features := some ⟨inp.features⟩ }
  else .error .InvalidFeature

/-! ### Lemmas: the shoelace sum under reversal, and ring orientation -/

/-- Swapping the two vertices of one shoelace term negates it. -/
theorem cross_swap (a b : Coordinates) : cross b a = - cross a b := by
  simp only [cross]
  ring

/-- The contribution of the last pair, used to peel a trailing vertex off the
shoelace sum. -/
def lastCross (l : List Coordinates) (b : Coordinates) : ℚ :=
  match l.getLast? with
  | none => 0
  | some a => cross a b

theorem lastCross_cons_cons (x y : Coordinates) (t : List Coordinates) (b : Coordinates) :
    lastCross (x :: y :: t) b = lastCross (y :: t) b := by
  simp [lastCross, List.getLast?_cons_cons]

theorem shoelaceSum_append_last (l : List Coordinates) (b : Coordinates) :
    shoelaceSum (l ++ [b]) = shoelaceSum l + lastCross l b := by
  induction l with
  | nil => simp [shoelaceSum, lastCross]
  | cons x t ih =>
    cases t with
    | nil => simp [shoelaceSum, lastCross]
    | cons y t2 =>
      have hl : shoelaceSum ((x :: y :: t2) ++ [b]) =
          cross x y + shoelaceSum ((y :: t2) ++ [b]) := rfl
      rw [hl, ih, shoelaceSum, lastCross_cons_cons]
      ring

theorem shoelaceSum_reverse (l : List Coordinates) :
    shoelaceSum l.reverse = - shoelaceSum l := by
  induction l with
  | nil => simp [shoelaceSum]
  | cons a t ih =>
    rw [List.reverse_cons, shoelaceSum_append_last, ih]
    cases t with
    | nil => simp [shoelaceSum, lastCross]
    | cons c t2 =>
      have h1 : (List.reverse (c :: t2)).getLast? = some c := by
        rw [List.getLast?_reverse]
        rfl
      rw [shoelaceSum, lastCross, h1]
      rw [cross_swap c a]  -- align the peeled term with the head term
      ring

theorem signedArea_reverse (l : LinearRing) : signedArea l.reverse = - signedArea l := by
  simp only [signedArea, shoelaceSum_reverse]
  ring

theorem ensureOrientation_fixed_true (r : LinearRing) (h : IsCounterClockwise r = true) :
    EnsureOrientation true r = r := by
  simp [EnsureOrientation, h]

theorem ensureOrientation_fixed_false (r : LinearRing) (h : IsCounterClockwise r = false) :
    EnsureOrientation false r = r := by
  simp [EnsureOrientation, h]

/-- After `EnsureOrientation(true)`, a ring whose signed area is nonzero is
counterclockwise. -/
theorem ensureOrientation_true_ccw (r : LinearRing)
    (h : signedArea (EnsureOrientation true r) ≠ 0) :
    IsCounterClockwise (EnsureOrientation true r) = true := by
  by_cases hc : IsCounterClockwise r = true
  · rw [ensureOrientation_fixed_true r hc]
    exact hc
  · have hcf : IsCounterClockwise r = false := by simpa using hc
    have hEO : EnsureOrientation true r = r.reverse := by simp [EnsureOrientation, hcf]
    rw [hEO] at h ⊢
    have h1 : ¬ (0 < signedArea r) := by simpa [IsCounterClockwise] using hcf
    have hne : signedArea r ≠ 0 := by
      intro he
      rw [signedArea_reverse, he] at h
      simp at h
    simp only [IsCounterClockwise, signedArea_reverse, gt_iff_lt, decide_eq_true_eq]
    have hlt : signedArea r < 0 := lt_of_le_of_ne (le_of_not_lt h1) hne
    linarith

/-- After `EnsureOrientation(false)`, every ring is (classified) clockwise. -/
theorem ensureOrientation_false_cw (r : LinearRing) :
    IsClockwise (EnsureOrientation false r) = true := by
  by_cases hc : IsCounterClockwise r = true
  · have hEO : EnsureOrientation false r = r.reverse := by simp [EnsureOrientation, hc]
    have h1 : 0 < signedArea r := by simpa [IsCounterClockwise] using hc
    rw [hEO]
    simp only [IsClockwise, IsCounterClockwise, signedArea_reverse, gt_iff_lt,
      Bool.not_eq_true', decide_eq_false_iff_not, not_lt]
    linarith
  · have hcf : IsCounterClockwise r = false := by simpa using hc
    have hEO : EnsureOrientation false r = r := by simp [EnsureOrientation, hcf]
    rw [hEO]
    simp [IsClockwise, hcf]

theorem signedArea_ensureOrientation_ne (b : Bool) (r : LinearRing)
    (h : signedArea r ≠ 0) : signedArea (EnsureOrientation b r) ≠ 0 := by
  unfold EnsureOrientation
  split
  · exact h
  · rw [signedArea_reverse]
    simpa using h

/-- Core idempotence fact behind C4: a second `EnsureOrientation` with the
same flag is a no-op, except in the zero-signed-area/counterclockwise corner. -/
theorem ensureOrientation_idem_aux (b : Bool) (r : LinearRing)
    (h : b = false ∨ signedArea r ≠ 0) :
    EnsureOrientation b (EnsureOrientation b r) = EnsureOrientation b r := by
  cases b with
  | false =>
    apply ensureOrientation_fixed_false
    have hcw := ensureOrientation_false_cw r
    simpa [IsClockwise] using hcw
  | true =>
    have hne : signedArea r ≠ 0 := h.resolve_left (by simp)
    exact ensureOrientation_fixed_true _
      (ensureOrientation_true_ccw r (signedArea_ensureOrientation_ne true r hne))

/-- The orientation a ring group actually satisfies after `ensureOrientation`:
the outer ring is counterclockwise when its signed area is nonzero, and every
hole is classified clockwise. -/
def orientedGroup (rings : LinearRings) : Prop :=
  (∀ r0 ∈ rings.head?, signedArea r0 ≠ 0 → IsCounterClockwise r0 = true)
    ∧ ∀ r ∈ rings.tail, IsClockwise r = true

theorem orientedGroup_ensureOrientation (rings : LinearRings) :
    orientedGroup (ensureOrientation rings) := by
  cases rings with
  | nil => exact ⟨by simp [ensureOrientation], by simp [ensureOrientation]⟩
  | cons r0 rest =>
    constructor
    · intro x hx hne
      simp only [ensureOrientation, List.head?_cons, Option.mem_def, Option.some.injEq] at hx
      subst hx
      exact ensureOrientation_true_ccw r0 hne
    · intro r hr
      simp only [ensureOrientation, List.tail_cons, List.mem_map] at hr
      obtain ⟨a, _, rfl⟩ := hr
      exact ensureOrientation_false_cw a

/-! ### Success-shape inversions for the polygon constructors -/

theorem NewPolygon_ok_rings {rings : LinearRings} {p : Polygon}
    (h : NewPolygon rings = .ok p) : p.rings = ensureOrientation rings := by
  unfold NewPolygon at h
  split at h
  · exact Except.noConfusion h
  · cases hv : validateRings rings with
    | error e => rw [hv] at h; exact Except.noConfusion h
    | ok u =>
      rw [hv] at h
      injection h with h1
      rw [← h1]

theorem orientGroups_ok {slice gs : List LinearRings}
    (h : orientGroups slice = .ok gs) : gs = slice.map ensureOrientation := by
  induction slice generalizing gs with
  | nil =>
    unfold orientGroups at h
    injection h with h1
    simp [← h1]
  | cons a rest ih =>
    unfold orientGroups at h
    cases hv : validateRings a with
    | error e => rw [hv] at h; exact Except.noConfusion h
    | ok u =>
      rw [hv] at h
      cases hr : orientGroups rest with
      | error e => rw [hr] at h; exact Except.noConfusion h
      | ok restGs =>
        rw [hr] at h
        injection h with h1
        rw [← h1, List.map_cons, ih hr]

theorem polygonBuild_ok {v : Raw} {rings : LinearRings}
    (h : polygonBuild v = .ok rings) : ∃ rings0, rings = ensureOrientation rings0 := by
  cases v with
  | arr s =>
    simp only [polygonBuild] at h
    cases hr : ringsBuild s with
    | error e => rw [hr] at h; exact Except.noConfusion h
    | ok rs =>
      rw [hr] at h
      split at h
      · exact Except.noConfusion h
      · rename_i rs2 heq
        injection heq with heq2
        subst heq2
        split at h
        · exact Except.noConfusion h
        · injection h with h1
          exact ⟨rs, h1.symm⟩
  | num q => exact Except.noConfusion h
  | null => exact Except.noConfusion h
  | other => exact Except.noConfusion h

theorem polygonGroupsBuild_ok_mem {l : List Raw} {gs : List LinearRings}
    (h : polygonGroupsBuild l = .ok gs) :
    ∀ g ∈ gs, ∃ g0, g = ensureOrientation g0 := by
  induction l generalizing gs with
  | nil =>
    unfold polygonGroupsBuild at h
    injection h with h1
    simp [← h1]
  | cons a rest ih =>
    unfold polygonGroupsBuild at h
    cases hp : polygonBuild a with
    | error e => rw [hp] at h; exact Except.noConfusion h
    | ok g0 =>
      rw [hp] at h
      cases hr : polygonGroupsBuild rest with
      | error e => rw [hr] at h; exact Except.noConfusion h
      | ok restGs =>
        rw [hr] at h
        injection h with h1
        intro g hg
        rw [← h1] at hg
        rcases List.mem_cons.mp hg with hg1 | hg2
        · rw [hg1]; exact polygonBuild_ok hp
        · exact ih hr g hg2

/-- C1, amended. For every ring group produced by `NewPolygon`, by the polygon
decode builder, by `NewMultiPolygonFromRingSlice`, or by the multi-polygon
decode builder: the first ring is counterclockwise whenever its signed area is
nonzero, and every subsequent ring is clockwise. (The unamended claim fails
for zero-signed-area outer rings; see the counterexample.) -/
theorem polygon_rings_orientation :
    (∀ rings p, NewPolygon rings = .ok p → orientedGroup p.rings)
    ∧ (∀ slice mp, NewMultiPolygonFromRingSlice slice = .ok mp →
        ∀ g ∈ mp.rings, orientedGroup g)
    ∧ (∀ v rings, polygonBuild v = .ok rings → orientedGroup rings)
    ∧ (∀ v rs, multiPolygonBuild v = .ok rs → ∀ g ∈ rs, orientedGroup g) := by
  refine ⟨?_, ?_, ?_, ?_⟩
  · intro rings p h
    rw [NewPolygon_ok_rings h]
    exact orientedGroup_ensureOrientation rings
  · intro slice mp h g hg
    unfold NewMultiPolygonFromRingSlice at h
    cases ho : orientGroups slice with
    | error e => rw [ho] at h; exact Except.noConfusion h
    | ok gs =>
      rw [ho] at h
      injection h with h1
      rw [← h1] at hg
      rw [orientGroups_ok ho] at hg
      rcases List.mem_map.mp hg with ⟨g0, _, rfl⟩
      exact orientedGroup_ensureOrientation g0
  · intro v rings h
    rcases polygonBuild_ok h with ⟨rings0, rfl⟩
    exact orientedGroup_ensureOrientation rings0
  · intro v rs h g hg
    cases v with
    | arr s =>
      rcases polygonGroupsBuild_ok_mem h g hg with ⟨g0, rfl⟩
      exact orientedGroup_ensureOrientation g0
    | num q => exact Except.noConfusion h
    | null => exact Except.noConfusion h
    | other => exact Except.noConfusion h

/-- The self-intersecting bowtie ring: closed, 5 vertices, signed area zero. -/
def bowtieRing : LinearRing := [[0, 0], [4, 4], [4, 0], [0, 4], [0, 0]]

/-- The bowtie ring reversed, as `EnsureOrientation(true)` leaves it. -/
def bowtieRingRev : LinearRing := [[0, 0], [0, 4], [4, 0], [4, 4], [0, 0]]

/-- A counterclockwise square (signed area 4). -/
def ccwSquare : LinearRing := [[0, 0], [2, 0], [2, 2], [0, 2], [0, 0]]

/-- Witness for the amended C1: a successfully built polygon whose rings
satisfy the orientation property. -/
theorem polygon_rings_orientation_witness : orientedGroup (Polygon.mk [ccwSquare]).rings :=
  polygon_rings_orientation.1 [ccwSquare] ⟨[ccwSquare]⟩ (by with_unfolding_all rfl)

/-- Counterexample to C1 as stated: `NewPolygon` succeeds on the bowtie ring,
yet the resulting outer ring is not counterclockwise. -/
theorem polygon_zero_area_outer_not_ccw :
    NewPolygon [bowtieRing] = .ok ⟨[bowtieRingRev]⟩
      ∧ IsCounterClockwise bowtieRingRev = false := by
  constructor
  · with_unfolding_all rfl
  · with_unfolding_all rfl

/-- C4, amended. `EnsureOrientation` is idempotent whenever the target is
clockwise or the ring's signed area is nonzero. (For a zero-signed-area ring
and a counterclockwise target the second application reverses again; see the
counterexample.) -/
theorem ensureOrientation_idempotent (b : Bool) (lr : LinearRing)
    (h : b = false ∨ signedArea lr ≠ 0) :
    EnsureOrientation b (EnsureOrientation b lr) = EnsureOrientation b lr :=
  ensureOrientation_idem_aux b lr h

/-- Witness for the amended C4 at the counterclockwise square. -/
theorem ensureOrientation_idempotent_witness :
    EnsureOrientation true (EnsureOrientation true ccwSquare) = EnsureOrientation true ccwSquare :=
  ensureOrientation_idempotent true ccwSquare (Or.inr (by with_unfolding_all decide))

/-- Counterexample to C4 as stated: on the zero-signed-area bowtie ring with a
counterclockwise target, applying `EnsureOrientation` twice differs from
applying it once. -/
theorem ensureOrientation_not_idempotent_cex :
    EnsureOrientation true (EnsureOrientation true bowtieRing)
      ≠ EnsureOrientation true bowtieRing := by
  with_unfolding_all decide

/-- C9. `IsClockwise` is exactly the negation of `IsCounterClockwise`, so
exactly one of the two holds for every ring; a zero-signed-area bowtie ring is
classified clockwise, not counterclockwise. -/
theorem isClockwise_eq_not_ccw :
    (∀ lr : LinearRing, IsClockwise lr = ! IsCounterClockwise lr)
    ∧ signedArea bowtieRing = 0
    ∧ IsClockwise bowtieRing = true
    ∧ IsCounterClockwise bowtieRing = false := by
  refine ⟨fun lr => rfl, ?_, ?_, ?_⟩ <;> with_unfolding_all decide

/-! ### C5: coordinate validation -/

/-- `NewCoordinates` written as one decision chain, proved equal to the
definition. -/
theorem NewCoordinates_eq (v : List ℚ) :
    NewCoordinates v =
      if v.length ≠ 2 ∧ v.length ≠ 3 then .error .CoordinatesSize
      else if v.getD 0 0 < -180 ∨ 180 < v.getD 0 0 then .error .LongitudeRange
      else if v.getD 1 0 < -90 ∨ 90 < v.getD 1 0 then .error .LatitudeRange
      else .ok v := by
  unfold NewCoordinates validateCoordinates
  simp only [LongitudeMin, LongitudeMax, LatitudeMin, LatitudeMax, coordsMinLen, coordsMaxLen,
    gt_iff_lt]
  by_cases h0 : v.length ≠ 2 ∧ v.length ≠ 3
  · rw [if_pos h0, if_pos h0]
  · rw [if_neg h0, if_neg h0]
    by_cases h1 : v.getD 0 0 < -180 ∨ 180 < v.getD 0 0
    · rw [if_pos h1, if_pos h1]
    · rw [if_neg h1, if_neg h1]
      by_cases h2 : v.getD 1 0 < -90 ∨ 90 < v.getD 1 0
      · rw [if_pos h2, if_pos h2]
      · rw [if_neg h2, if_neg h2]

/-- C5. `NewCoordinates` succeeds exactly on 2- or 3-element input with
longitude in [-180,180] and latitude in [-90,90]; otherwise it fails with the
size error, the longitude-range error, or (for in-range longitude) the
latitude-range error; in particular `NewCoordinates [200,0]` fails with the
longitude-range error. -/
theorem newCoordinates_validation :
    (∀ v : List ℚ, (NewCoordinates v).isOk = true ↔
      ((v.length = 2 ∨ v.length = 3)
        ∧ -180 ≤ v.getD 0 0 ∧ v.getD 0 0 ≤ 180
        ∧ -90 ≤ v.getD 1 0 ∧ v.getD 1 0 ≤ 90))
    ∧ (∀ v : List ℚ, v.length ≠ 2 → v.length ≠ 3 →
        NewCoordinates v = .error .CoordinatesSize)
    ∧ (∀ v : List ℚ, (v.length = 2 ∨ v.length = 3) →
        (v.getD 0 0 < -180 ∨ 180 < v.getD 0 0) →
        NewCoordinates v = .error .LongitudeRange)
    ∧ (∀ v : List ℚ, (v.length = 2 ∨ v.length = 3) →
        -180 ≤ v.getD 0 0 → v.getD 0 0 ≤ 180 →
        (v.getD 1 0 < -90 ∨ 90 < v.getD 1 0) →
        NewCoordinates v = .error .LatitudeRange)
    ∧ NewCoordinates [200, 0] = .error .LongitudeRange := by
  refine ⟨?_, ?_, ?_, ?_, rfl⟩
  · intro v
    rw [NewCoordinates_eq]
    by_cases h0 : v.length ≠ 2 ∧ v.length ≠ 3
    · rw [if_pos h0]
      constructor
      · intro hh
        exact Bool.noConfusion hh
      · rintro ⟨h23, -⟩
        rcases h23 with h | h
        · exact absurd h h0.1
        · exact absurd h h0.2
    · rw [if_neg h0]
      have h23 : v.length = 2 ∨ v.length = 3 := by
        rcases Decidable.em (v.length = 2) with h | h
        · exact .inl h
        · right
          rcases Decidable.em (v.length = 3) with h3 | h3
          · exact h3
          · exact absurd ⟨h, h3⟩ h0
      by_cases h1 : v.getD 0 0 < -180 ∨ 180 < v.getD 0 0
      · rw [if_pos h1]
        constructor
        · intro hh
          exact Bool.noConfusion hh
        · rintro ⟨-, hlo, hhi, -⟩
          rcases h1 with hl | hl
          · exact absurd hlo (not_le.mpr hl)
          · exact absurd hhi (not_le.mpr hl)
      · rw [if_neg h1]
        by_cases h2 : v.getD 1 0 < -90 ∨ 90 < v.getD 1 0
        · rw [if_pos h2]
          constructor
          · intro hh
            exact Bool.noConfusion hh
          · rintro ⟨-, -, -, hlo, hhi⟩
            rcases h2 with hl | hl
            · exact absurd hlo (not_le.mpr hl)
            · exact absurd hhi (not_le.mpr hl)
        · rw [if_neg h2]
          push_neg at h1 h2
          constructor
          · intro _
            exact ⟨h23, h1.1, h1.2, h2.1, h2.2⟩
          · intro _
            rfl
  · intro v h2 h3
    rw [NewCoordinates_eq, if_pos ⟨h2, h3⟩]
  · intro v h23 h1
    rw [NewCoordinates_eq, if_neg (by rintro ⟨h2, h3⟩; rcases h23 with h | h <;> simp_all),
      if_pos h1]
  · intro v h23 hlo hhi h2
    rw [NewCoordinates_eq, if_neg (by rintro ⟨ha, hb⟩; rcases h23 with h | h <;> simp_all),
      if_neg (by rintro (h | h); exacts [absurd hlo (not_le.mpr h), absurd hhi (not_le.mpr h)]),
      if_pos h2]

/-- Witness for C5, applying the characterization at concrete inputs. -/
theorem newCoordinates_validation_witness :
    (NewCoordinates [0, 0]).isOk = true
    ∧ NewCoordinates [1, 2, 3, 4] = .error .CoordinatesSize
    ∧ NewCoordinates [0, 100] = .error .LatitudeRange := by
  refine ⟨?_, ?_, ?_⟩
  · exact (newCoordinates_validation.1 [0, 0]).mpr (by norm_num)
  · exact newCoordinates_validation.2.1 [1, 2, 3, 4] (by decide) (by decide)
  · exact newCoordinates_validation.2.2.2.1 [0, 100] (by norm_num) (by norm_num) (by norm_num)
      (by norm_num)

/-! ### C10: vertex-level constructors do not re-validate coordinates -/

theorem validateRings_ok_of_checks (rings : LinearRings)
    (h : ∀ r ∈ rings, HasValidSize r = true ∧ IsClosed r = true) :
    validateRings rings = .ok () := by
  induction rings with
  | nil => rfl
  | cons a rest ih =>
    have ha := h a (by simp)
    simp only [validateRings, ha.1, ha.2]
    simp only [not_true_eq_false, if_false]
    exact ih fun r hr => h r (by simp [hr])

/-- C10. `NewLineString`, `NewLinearRing` and `NewPolygon` accept vertex data
containing out-of-range coordinates: only the count/closure checks run. The
decode path, by contrast, rejects the same out-of-range data. -/
theorem constructors_skip_coordinate_validation :
    NewLineString [[200, 0], [0, 0]] = .ok ⟨[[200, 0], [0, 0]]⟩
    ∧ NewLinearRing [[200, 0], [300, 0], [250, 40], [200, 0]]
        = .ok [[200, 0], [300, 0], [250, 40], [200, 0]]
    ∧ (NewPolygon [[[200, 0], [300, 0], [250, 40], [200, 0]]]).isOk = true
    ∧ (∀ v : Vertices, 2 ≤ v.length → (NewLineString v).isOk = true)
    ∧ (∀ r : LinearRing, HasValidSize r = true → IsClosed r = true → NewLinearRing r = .ok r)
    ∧ (∀ rings : LinearRings, rings ≠ [] →
        (∀ r ∈ rings, HasValidSize r = true ∧ IsClosed r = true) →
        (NewPolygon rings).isOk = true)
    ∧ decodeGeom (.mk "LineString" (verticesRaw [[200, 0], [0, 0]]) [])
        = .error .LongitudeRange := by
  refine ⟨rfl, rfl, by with_unfolding_all rfl, ?_, ?_, ?_, by with_unfolding_all rfl⟩
  · intro v hv
    unfold NewLineString LineStringMinimumSize
    rw [if_neg (by omega)]
    rfl
  · intro r h1 h2
    simp [NewLinearRing, h1, h2]
  · intro rings hne h
    unfold NewPolygon
    rw [if_neg (by simpa [List.length_eq_zero] using hne)]
    rw [validateRings_ok_of_checks rings h]
    rfl

/-- Witness for C10's universally quantified parts at concrete inputs. -/
theorem constructors_skip_coordinate_validation_witness :
    (NewLineString [[0, 0], [1, 1]]).isOk = true
    ∧ NewLinearRing ccwSquare = .ok ccwSquare
    ∧ (NewPolygon [ccwSquare]).isOk = true := by
  refine ⟨?_, ?_, ?_⟩
  · exact constructors_skip_coordinate_validation.2.2.2.1 [[0, 0], [1, 1]] (by decide)
  · exact constructors_skip_coordinate_validation.2.2.2.2.1 ccwSquare (by decide) (by decide)
  · exact constructors_skip_coordinate_validation.2.2.2.2.2.1 [ccwSquare] (by decide) (by decide)

/-! ### C7: features with absent geometry -/

/-- C7. Decoding a `"Feature"` document whose geometry field is absent or null
succeeds with an empty geometry envelope, and the bounding box of a feature
without geometry is the empty box. -/
theorem feature_absent_geometry :
    (∀ inp : FeaturesInput, inp.type = "Feature" → inp.geometry = none →
      Obj.unmarshal inp =
        .ok { featureType := "Feature", feature := some { geometry := none }, features := none })
    ∧ (∀ f : Feature, f.geometry = none → f.boundingBox = []) := by
  constructor
  · intro inp ht hg
    simp [Obj.unmarshal, ht, hg]
  · intro f hf
    unfold Feature.boundingBox Feature.vertices
    rw [hf]
    rfl

/-- Witness for C7 at a concrete geometry-less feature document. -/
theorem feature_absent_geometry_witness :
    Obj.unmarshal ⟨"Feature", none, []⟩ = .ok ⟨"Feature", some ⟨none⟩, none⟩
    ∧ Feature.boundingBox ⟨none⟩ = [] :=
  ⟨feature_absent_geometry.1 ⟨"Feature", none, []⟩ rfl rfl,
    feature_absent_geometry.2 ⟨none⟩ rfl⟩

/-! ### C8: the two bbox versions agree -/

theorem bboxStepIf_eq_upd : bboxStepIf = bboxStepUpd := by
  funext s v
  simp only [bboxStepIf, bboxStepUpd, updateRange]

theorem bboxWidenIf_eq_upd : bboxWidenIf = bboxWidenUpd := by
  funext s v
  simp only [bboxWidenIf, bboxWidenUpd, updateRange]

/-- C8. The two `bbox` implementations in the source (explicit comparisons
with `counter3D`, and `updateRange` with `altitudeCount`) compute the same
bounding box on every vertex list. -/
theorem bbox_versions_agree : ∀ vertices : Vertices, bboxCmp vertices = bbox vertices := by
  intro vertices
  unfold bboxCmp bbox bboxAdjustIf bboxAdjustUpd
  rw [bboxStepIf_eq_upd, bboxWidenIf_eq_upd]

/-! ### C3: characterization of the bounding-box computation -/

/-- The minimum longitude over a vertex list (empty-list default 0). -/
def lngMin (vs : Vertices) : ℚ := ((vs.map Longitude).min?).getD 0

/-- The maximum longitude over a vertex list. -/
def lngMax (vs : Vertices) : ℚ := ((vs.map Longitude).max?).getD 0

/-- The minimum latitude over a vertex list. -/
def latMin (vs : Vertices) : ℚ := ((vs.map Latitude).min?).getD 0

/-- The maximum latitude over a vertex list. -/
def latMax (vs : Vertices) : ℚ := ((vs.map Latitude).max?).getD 0

/-- The altitudes of the altitude-bearing vertices, in order. -/
def altList (vs : Vertices) : List ℚ := (vs.filter fun v => HasAltitude v).map Altitude

/-- The minimum altitude over the altitude-bearing vertices. -/
def altMin (vs : Vertices) : ℚ := ((altList vs).min?).getD 0

/-- The maximum altitude over the altitude-bearing vertices. -/
def altMax (vs : Vertices) : ℚ := ((altList vs).max?).getD 0

theorem if_lt_eq_min (x m : ℚ) : (if x < m then x else m) = min m x := by
  rcases lt_or_le x m with h | h
  · rw [if_pos h, min_eq_right h.le]
  · rw [if_neg (not_lt.mpr h), min_eq_left h]

theorem if_gt_eq_max (x m : ℚ) : (if x > m then x else m) = max m x := by
  rcases lt_or_le m x with h | h
  · rw [if_pos h, max_eq_right h.le]
  · rw [if_neg (not_lt.mpr h), max_eq_left h]

theorem bboxStepUpd_fields (s : BState) (v : Coordinates) :
    bboxStepUpd s v =
      ⟨min s.minLng (Longitude v), min s.minLat (Latitude v),
       max s.maxLng (Longitude v), max s.maxLat (Latitude v),
       if HasAltitude v then min s.minAlt (Altitude v) else s.minAlt,
       if HasAltitude v then max s.maxAlt (Altitude v) else s.maxAlt,
       if HasAltitude v then s.altCount + 1 else s.altCount⟩ := by
  by_cases hv : HasAltitude v
  · simp only [bboxStepUpd, updateRange, hv, if_true, if_lt_eq_min, if_gt_eq_max]
  · simp only [bboxStepUpd, updateRange, hv, Bool.false_eq_true, if_false,
      if_lt_eq_min, if_gt_eq_max]

/-- The main loop of `bbox`, characterized field by field: seeded min/max
folds over the longitudes, latitudes and (altitude-bearing) altitudes, and the
count of altitude-bearing vertices. -/
theorem foldl_bboxStepUpd (vs : Vertices) (s : BState) :
    vs.foldl bboxStepUpd s =
      ⟨(vs.map Longitude).foldl min s.minLng,
       (vs.map Latitude).foldl min s.minLat,
       (vs.map Longitude).foldl max s.maxLng,
       (vs.map Latitude).foldl max s.maxLat,
       (altList vs).foldl min s.minAlt,
       (altList vs).foldl max s.maxAlt,
       s.altCount + (vs.filter fun v => HasAltitude v).length⟩ := by
  induction vs generalizing s with
  | nil =>
    cases s
    simp [altList]
  | cons v rest ih =>
    rw [List.foldl_cons, ih, bboxStepUpd_fields]
    by_cases hv : HasAltitude v
    · simp only [hv, if_true, altList, List.filter_cons, List.map_cons, List.foldl_cons,
        List.length_cons]
      refine congrArg (fun n => BState.mk _ _ _ _ _ _ n) ?_
      omega
    · simp only [hv, Bool.false_eq_true, if_false, altList, List.filter_cons, List.map_cons,
        List.foldl_cons]

/-- The altitude-defaulting loop of `bbox`, characterized: a no-op when every
vertex has altitude, otherwise one min/max-with-0 on the altitude channel. -/
theorem foldl_bboxWidenUpd (vs : Vertices) (s : BState) :
    vs.foldl bboxWidenUpd s =
      if vs.all (fun v => HasAltitude v) then s
      else { s with minAlt := min s.minAlt 0, maxAlt := max s.maxAlt 0 } := by
  induction vs generalizing s with
  | nil => simp
  | cons v rest ih =>
    rw [List.foldl_cons]
    by_cases hv : HasAltitude v
    · have hstep : bboxWidenUpd s v = s := by
        simp [bboxWidenUpd, hv]
      rw [hstep, ih]
      simp [hv]
    · have hstep : bboxWidenUpd s v =
          { s with minAlt := min s.minAlt 0, maxAlt := max s.maxAlt 0 } := by
        simp only [bboxWidenUpd, updateRange, hv, Bool.false_eq_true, not_false_eq_true,
          if_true, if_lt_eq_min]
        have : (if (0 : ℚ) > s.maxAlt then (0 : ℚ) else s.maxAlt) = max s.maxAlt 0 :=
          if_gt_eq_max 0 s.maxAlt
        rw [this]
      rw [hstep, ih]
      have hall : ((v :: rest).all fun v => HasAltitude v) = false := by
        simp [hv]
      rw [hall, if_neg Bool.false_ne_true]
      split
      · rfl
      · simp [min_assoc, max_assoc]

theorem foldl_min_seeded (ls : List ℚ) (seed : ℚ) (hne : ls ≠ [])
    (hb : ∀ x ∈ ls, x ≤ seed) : ls.foldl min seed = ls.min?.getD 0 := by
  cases ls with
  | nil => exact absurd rfl hne
  | cons a as =>
    have h1 : (a :: as).min? = some (as.foldl min a) := rfl
    rw [h1, List.foldl_cons, min_eq_right (hb a (by simp))]
    rfl

theorem foldl_max_seeded (ls : List ℚ) (seed : ℚ) (hne : ls ≠ [])
    (hb : ∀ x ∈ ls, seed ≤ x) : ls.foldl max seed = ls.max?.getD 0 := by
  cases ls with
  | nil => exact absurd rfl hne
  | cons a as =>
    have h1 : (a :: as).max? = some (as.foldl max a) := rfl
    rw [h1, List.foldl_cons, max_eq_right (hb a (by simp))]
    rfl

/-- The coordinate ranges of the data model (spec §3): longitude in
[-180,180], latitude in [-90,90]. -/
abbrev inRangeCoord (v : Coordinates) : Prop :=
  -180 ≤ Longitude v ∧ Longitude v ≤ 180 ∧ -90 ≤ Latitude v ∧ Latitude v ≤ 90

/-- The altitude, when present, is a finite float64 value. -/
abbrev boundedAlt (v : Coordinates) : Prop :=
  HasAltitude v = true → -maxFloat64 ≤ Altitude v ∧ Altitude v ≤ maxFloat64

/-- `bbox` on a nonempty list, with the first pass expanded into seeded folds. -/
theorem bbox_nonempty (vs : Vertices) (hne : vs ≠ []) :
    bbox vs =
      bboxFinish (bboxAdjustUpd vs
        ⟨(vs.map Longitude).foldl min 180, (vs.map Latitude).foldl min 90,
         (vs.map Longitude).foldl max (-180), (vs.map Latitude).foldl max (-90),
         (altList vs).foldl min maxFloat64, (altList vs).foldl max (-maxFloat64),
         (vs.filter fun v => HasAltitude v).length⟩) := by
  unfold bbox
  rw [if_neg (fun h => hne (List.length_eq_zero.mp h))]
  rw [foldl_bboxStepUpd]
  simp [bboxInit, LongitudeMax, LatitudeMax, LongitudeMin, LatitudeMin]

theorem all_hasAltitude_false (vs : Vertices) {v : Coordinates}
    (hv : v ∈ vs) (hvf : HasAltitude v = false) :
    (vs.all fun v => HasAltitude v) = false := by
  cases h : vs.all fun v => HasAltitude v
  · rfl
  · rw [List.all_eq_true] at h
    rw [h v hv] at hvf
    exact Bool.noConfusion hvf

/-- C3, amended. The bounding-box computation, for vertex lists whose
longitudes/latitudes are within the documented ranges and whose altitudes are
finite float64 values: empty box on empty input; the 2D min/max box when no
vertex has altitude; with some-but-not-all altitudes, a 3D box whose altitude
range is widened to include 0; with all altitudes, the pure 3D box; and the
concrete mixed-altitude example from the spec. (Unrestricted, the claim fails
at an out-of-range vertex because the fold seeds are the range constants; see
the counterexample.) -/
theorem bbox_characterization :
    bbox [] = []
    ∧ (∀ vs : Vertices, vs ≠ [] → (∀ v ∈ vs, inRangeCoord v) →
        (∀ v ∈ vs, HasAltitude v = false) →
        bbox vs = [lngMin vs, latMin vs, lngMax vs, latMax vs])
    ∧ (∀ vs : Vertices, (∀ v ∈ vs, inRangeCoord v) → (∀ v ∈ vs, boundedAlt v) →
        (∃ v ∈ vs, HasAltitude v = true) → (∃ v ∈ vs, HasAltitude v = false) →
        bbox vs = [lngMin vs, latMin vs, min (altMin vs) 0,
          lngMax vs, latMax vs, max (altMax vs) 0])
    ∧ (∀ vs : Vertices, vs ≠ [] → (∀ v ∈ vs, inRangeCoord v) → (∀ v ∈ vs, boundedAlt v) →
        (∀ v ∈ vs, HasAltitude v = true) →
        bbox vs = [lngMin vs, latMin vs, altMin vs, lngMax vs, latMax vs, altMax vs])
    ∧ bbox [[-10, 0], [10, 20, -200]] = [-10, 0, -200, 10, 20, 0] := by
  have lngBound : ∀ vs : Vertices, (∀ v ∈ vs, inRangeCoord v) →
      ∀ x ∈ vs.map Longitude, x ≤ 180 := by
    intro vs hrange x hx
    rcases List.mem_map.mp hx with ⟨v, hv, rfl⟩
    exact (hrange v hv).2.1
  have lngBoundLo : ∀ vs : Vertices, (∀ v ∈ vs, inRangeCoord v) →
      ∀ x ∈ vs.map Longitude, (-180 : ℚ) ≤ x := by
    intro vs hrange x hx
    rcases List.mem_map.mp hx with ⟨v, hv, rfl⟩
    exact (hrange v hv).1
  have latBound : ∀ vs : Vertices, (∀ v ∈ vs, inRangeCoord v) →
      ∀ x ∈ vs.map Latitude, x ≤ 90 := by
    intro vs hrange x hx
    rcases List.mem_map.mp hx with ⟨v, hv, rfl⟩
    exact (hrange v hv).2.2.2
  have latBoundLo : ∀ vs : Vertices, (∀ v ∈ vs, inRangeCoord v) →
      ∀ x ∈ vs.map Latitude, (-90 : ℚ) ≤ x := by
    intro vs hrange x hx
    rcases List.mem_map.mp hx with ⟨v, hv, rfl⟩
    exact (hrange v hv).2.2.1
  have altBoundHi : ∀ vs : Vertices, (∀ v ∈ vs, boundedAlt v) →
      ∀ x ∈ altList vs, x ≤ maxFloat64 := by
    intro vs hbound x hx
    rcases List.mem_map.mp hx with ⟨v, hv, rfl⟩
    have hv2 := List.mem_filter.mp hv
    exact (hbound v hv2.1 hv2.2).2
  have altBoundLo : ∀ vs : Vertices, (∀ v ∈ vs, boundedAlt v) →
      ∀ x ∈ altList vs, -maxFloat64 ≤ x := by
    intro vs hbound x hx
    rcases List.mem_map.mp hx with ⟨v, hv, rfl⟩
    have hv2 := List.mem_filter.mp hv
    exact (hbound v hv2.1 hv2.2).1
  refine ⟨rfl, ?_, ?_, ?_, by with_unfolding_all decide⟩
  · -- no vertex has altitude
    intro vs hne hrange h2d
    rw [bbox_nonempty vs hne]
    have hfilter : vs.filter (fun v => HasAltitude v) = [] :=
      List.filter_eq_nil_iff.mpr (fun a ha => by simp [h2d a ha])
    have haltL : altList vs = [] := by rw [altList, hfilter]; rfl
    have hlngne : vs.map Longitude ≠ [] := by simpa using hne
    have hlatne : vs.map Latitude ≠ [] := by simpa using hne
    rw [haltL, hfilter]
    unfold bboxAdjustUpd
    dsimp only
    rw [if_pos (by
      simp only [List.length_nil]
      intro h
      exact hne (List.length_eq_zero.mp h.symm))]
    rw [foldl_bboxWidenUpd]
    rcases List.exists_mem_of_ne_nil vs hne with ⟨v0, hv0⟩
    rw [all_hasAltitude_false vs hv0 (h2d v0 hv0), if_neg Bool.false_ne_true]
    unfold bboxFinish
    dsimp only
    rw [if_neg (by simp)]
    rw [foldl_min_seeded _ _ hlngne (lngBound vs hrange),
      foldl_min_seeded _ _ hlatne (latBound vs hrange),
      foldl_max_seeded _ _ hlngne (lngBoundLo vs hrange),
      foldl_max_seeded _ _ hlatne (latBoundLo vs hrange)]
    rfl
  · -- some but not all vertices have altitude
    intro vs hrange hbound hsome hnone
    rcases hsome with ⟨va, hva, hvat⟩
    rcases hnone with ⟨vb, hvb, hvbf⟩
    have hne : vs ≠ [] := List.ne_nil_of_mem hva
    rw [bbox_nonempty vs hne]
    have hlngne : vs.map Longitude ≠ [] := by simpa using hne
    have hlatne : vs.map Latitude ≠ [] := by simpa using hne
    have haltne : altList vs ≠ [] := by
      have hmem : va ∈ vs.filter (fun v => HasAltitude v) := List.mem_filter.mpr ⟨hva, hvat⟩
      exact List.ne_nil_of_mem (List.mem_map_of_mem _ hmem)
    have hcnt : (vs.filter fun v => HasAltitude v).length ≠ vs.length := by
      intro heq
      have hsame : vs.filter (fun v => HasAltitude v) = vs :=
        (List.filter_sublist vs).eq_of_length heq
      have hall := List.filter_eq_self.mp hsame
      rw [hall vb hvb] at hvbf
      exact Bool.noConfusion hvbf
    have hcntpos : 0 < (vs.filter fun v => HasAltitude v).length := by
      have hmem : va ∈ vs.filter (fun v => HasAltitude v) := List.mem_filter.mpr ⟨hva, hvat⟩
      exact List.length_pos.mpr (List.ne_nil_of_mem hmem)
    unfold bboxAdjustUpd
    dsimp only
    rw [if_pos hcnt]
    rw [foldl_bboxWidenUpd]
    rw [all_hasAltitude_false vs hvb hvbf, if_neg Bool.false_ne_true]
    unfold bboxFinish
    dsimp only
    rw [if_pos hcntpos]
    rw [foldl_min_seeded _ _ hlngne (lngBound vs hrange),
      foldl_min_seeded _ _ hlatne (latBound vs hrange),
      foldl_max_seeded _ _ hlngne (lngBoundLo vs hrange),
      foldl_max_seeded _ _ hlatne (latBoundLo vs hrange),
      foldl_min_seeded _ _ haltne (altBoundHi vs hbound),
      foldl_max_seeded _ _ haltne (altBoundLo vs hbound)]
    rfl
  · -- every vertex has altitude
    intro vs hne hrange hbound h3d
    rw [bbox_nonempty vs hne]
    have hlngne : vs.map Longitude ≠ [] := by simpa using hne
    have hlatne : vs.map Latitude ≠ [] := by simpa using hne
    have hfilter : vs.filter (fun v => HasAltitude v) = vs :=
      List.filter_eq_self.mpr h3d
    have haltne : altList vs ≠ [] := by
      rw [altList, hfilter]
      simpa using hne
    rw [hfilter]
    unfold bboxAdjustUpd
    dsimp only
    rw [if_neg (by simp)]
    unfold bboxFinish
    dsimp only
    rw [if_pos (List.length_pos.mpr hne)]
    rw [foldl_min_seeded _ _ hlngne (lngBound vs hrange),
      foldl_min_seeded _ _ hlatne (latBound vs hrange),
      foldl_max_seeded _ _ hlngne (lngBoundLo vs hrange),
      foldl_max_seeded _ _ hlatne (latBoundLo vs hrange),
      foldl_min_seeded _ _ haltne (altBoundHi vs hbound),
      foldl_max_seeded _ _ haltne (altBoundLo vs hbound)]
    rfl

/-- Counterexample to C3 as stated (for every vertex list): with the
out-of-range longitude 200 — constructible, since the vertex-level
constructors do not re-validate coordinates — the first loop's seed 180
survives as the reported minimum, so the result is not the min/max box. -/
theorem bbox_out_of_range_cex :
    (∀ v ∈ [[(200 : ℚ), 0]], HasAltitude v = false)
    ∧ bbox [[200, 0]] = [180, 0, 200, 0]
    ∧ bbox [[200, 0]]
        ≠ [lngMin [[200, 0]], latMin [[200, 0]], lngMax [[200, 0]], latMax [[200, 0]]] := by
  refine ⟨by decide, ?_, ?_⟩
  · with_unfolding_all decide
  · with_unfolding_all decide

/-- Witness for C3: the characterization applied at the spec's own examples. -/
theorem bbox_characterization_witness :
    bbox [[1, 2], [3, 4], [0, 5]] = [0, 2, 3, 5]
    ∧ bbox [[-10, 0], [10, 20, -200]] = [-10, 0, -200, 10, 20, 0]
    ∧ bbox [[1, 2, 3], [4, 5, 6], [0, 7, 1]] = [0, 2, 1, 4, 7, 6] := by
  refine ⟨?_, ?_, ?_⟩
  · have h := bbox_characterization.2.1 [[1, 2], [3, 4], [0, 5]] (by decide)
      (by decide) (by decide)
    rw [h]
    with_unfolding_all decide
  · have h := bbox_characterization.2.2.1 [[-10, 0], [10, 20, -200]] (by decide)
      (by decide) (by decide) (by decide)
    rw [h]
    with_unfolding_all decide
  · have h := bbox_characterization.2.2.2.1 [[1, 2, 3], [4, 5, 6], [0, 7, 1]] (by decide)
      (by decide) (by decide) (by decide)
    rw [h]
    with_unfolding_all decide

/-! ### C6: the decode dispatcher -/

/-- C6, amended. Provided every entry of the document's `geometries` field
itself decodes, the dispatcher fails with the invalid-type-field error on any
unknown or missing tag, populates each of the six coordinate-bearing variants
through that variant's builder, and collects the decoded children for
`"GeometryCollection"`; the collection's own coordinate builder always fails
with its dedicated error. (Without the proviso the unamended claim fails: a
failing child is reported instead of the tag error; see the counterexample.) -/
theorem decode_dispatch :
    (∀ (t : String) (c : Raw) (gs : List GeomDoc) (children : List Geom),
      decodeGeomList gs = .ok children →
      t ≠ "Point" → t ≠ "LineString" → t ≠ "MultiPoint" → t ≠ "MultiLineString" →
      t ≠ "Polygon" → t ≠ "MultiPolygon" → t ≠ "GeometryCollection" →
      decodeGeom (.mk t c gs) = .error .InvalidTypeField)
    ∧ (∀ (c : Raw) (gs : List GeomDoc) (children : List Geom),
        decodeGeomList gs = .ok children →
        decodeGeom (.mk "Point" c gs) = (pointBuild c).map Geom.point
        ∧ decodeGeom (.mk "LineString" c gs) = (lineStringBuild c).map Geom.lineString
        ∧ decodeGeom (.mk "MultiPoint" c gs) = (multiPointBuild c).map Geom.multiPoint
        ∧ decodeGeom (.mk "MultiLineString" c gs)
            = (multiLineStringBuild c).map Geom.multiLineString
        ∧ decodeGeom (.mk "Polygon" c gs) = (polygonBuild c).map Geom.polygon
        ∧ decodeGeom (.mk "MultiPolygon" c gs) = (multiPolygonBuild c).map Geom.multiPolygon)
    ∧ (∀ (c : Raw) (gs : List GeomDoc) (children : List Geom),
        decodeGeomList gs = .ok children →
        decodeGeom (.mk "GeometryCollection" c gs) = .ok (.collection children))
    ∧ (∀ r : Raw,
        geometryCollectionBuildCoordinates r = .error .GeometryCollectionBuildCoordinates) := by
  have hmk : ∀ (t : String) (c : Raw) (gs : List GeomDoc),
      decodeGeom (.mk t c gs) =
        match decodeGeomList gs with
        | .error e => .error e
        | .ok children => dispatchGeom t c children := fun _ _ _ => rfl
  refine ⟨?_, ?_, ?_, fun r => rfl⟩
  · intro t c gs children h ht1 ht2 ht3 ht4 ht5 ht6 ht7
    rw [hmk, h]
    show dispatchGeom t c children = .error .InvalidTypeField
    unfold dispatchGeom
    rw [if_neg ht1, if_neg ht2, if_neg ht3, if_neg ht4, if_neg ht5, if_neg ht6, if_neg ht7]
  · intro c gs children h
    refine ⟨?_, ?_, ?_, ?_, ?_, ?_⟩
    · rw [hmk, h]
      show dispatchGeom "Point" c children = (pointBuild c).map Geom.point
      unfold dispatchGeom
      rw [if_pos rfl]
      cases pointBuild c <;> rfl
    · rw [hmk, h]
      show dispatchGeom "LineString" c children = (lineStringBuild c).map Geom.lineString
      unfold dispatchGeom
      rw [if_neg (by decide), if_pos rfl]
      cases lineStringBuild c <;> rfl
    · rw [hmk, h]
      show dispatchGeom "MultiPoint" c children = (multiPointBuild c).map Geom.multiPoint
      unfold dispatchGeom
      rw [if_neg (by decide), if_neg (by decide), if_pos rfl]
      cases multiPointBuild c <;> rfl
    · rw [hmk, h]
      show dispatchGeom "MultiLineString" c children
          = (multiLineStringBuild c).map Geom.multiLineString
      unfold dispatchGeom
      rw [if_neg (by decide), if_neg (by decide), if_neg (by decide), if_pos rfl]
      cases multiLineStringBuild c <;> rfl
    · rw [hmk, h]
      show dispatchGeom "Polygon" c children = (polygonBuild c).map Geom.polygon
      unfold dispatchGeom
      rw [if_neg (by decide), if_neg (by decide), if_neg (by decide), if_neg (by decide),
        if_pos rfl]
      cases polygonBuild c <;> rfl
    · rw [hmk, h]
      show dispatchGeom "MultiPolygon" c children = (multiPolygonBuild c).map Geom.multiPolygon
      unfold dispatchGeom
      rw [if_neg (by decide), if_neg (by decide), if_neg (by decide), if_neg (by decide),
        if_neg (by decide), if_pos rfl]
      cases multiPolygonBuild c <;> rfl
  · intro c gs children h
    rw [hmk, h]
    show dispatchGeom "GeometryCollection" c children = .ok (.collection children)
    unfold dispatchGeom
    rw [if_neg (by decide), if_neg (by decide), if_neg (by decide), if_neg (by decide),
      if_neg (by decide), if_neg (by decide), if_pos rfl]

/-- Witness for the amended C6 at an unknown tag with no children. -/
theorem decode_dispatch_witness :
    decodeGeom (.mk "Bogus" .null []) = .error .InvalidTypeField
    ∧ decodeGeom (.mk "GeometryCollection" .null []) = .ok (.collection []) :=
  ⟨decode_dispatch.1 "Bogus" .null [] [] rfl (by decide) (by decide) (by decide) (by decide)
      (by decide) (by decide) (by decide),
    decode_dispatch.2.2.1 .null [] [] rfl⟩

/-- Counterexample to C6 as stated: a document with the unknown tag `"Bogus"`
but a failing `geometries` entry decodes to the child's longitude-range error,
not to the invalid-type-field error. -/
theorem decode_unknown_tag_child_error :
    decodeGeom (.mk "Bogus" .null [.mk "Point" (.arr [.num 200, .num 0]) []])
      = .error .LongitudeRange
    ∧ GeoErr.LongitudeRange ≠ GeoErr.InvalidTypeField :=
  ⟨rfl, by decide⟩

/-! ### C2: the decode-encode round trip -/

theorem validCoord_parts (c : Coordinates) (h : validCoord c = true) :
    (c.length = 2 ∨ c.length = 3)
      ∧ -180 ≤ Longitude c ∧ Longitude c ≤ 180
      ∧ -90 ≤ Latitude c ∧ Latitude c ≤ 90 := by
  simp only [validCoord, coordsMinLen, coordsMaxLen, Bool.and_eq_true, Bool.or_eq_true,
    beq_iff_eq, decide_eq_true_eq] at h
  exact ⟨h.1.1.1.1, h.1.1.1.2, h.1.1.2, h.1.2, h.2⟩

theorem NewCoordinates_roundtrip (c : Coordinates) (h : validCoord c = true) :
    NewCoordinates c = .ok c := by
  obtain ⟨hlen, hlo, hhi, hla, hlb⟩ := validCoord_parts c h
  have h0 : ¬(c.length ≠ 2 ∧ c.length ≠ 3) := by
    rintro ⟨h2, h3⟩
    rcases hlen with hl | hl <;> simp_all
  have h1 : ¬(c.getD 0 0 < -180 ∨ 180 < c.getD 0 0) := by
    rintro (hx | hx)
    · exact absurd hlo (not_le.mpr hx)
    · exact absurd hhi (not_le.mpr hx)
  have h2 : ¬(c.getD 1 0 < -90 ∨ 90 < c.getD 1 0) := by
    rintro (hx | hx)
    · exact absurd hla (not_le.mpr hx)
    · exact absurd hlb (not_le.mpr hx)
  rw [NewCoordinates_eq, if_neg h0, if_neg h1, if_neg h2]

theorem rawNumbers_map (c : List ℚ) : rawNumbers (c.map .num) = .ok c := by
  induction c with
  | nil => rfl
  | cons q rest ih =>
    show (match rawNumber (Raw.num q) with
      | Except.error e => (Except.error e : Except GeoErr (List ℚ))
      | Except.ok q2 =>
        match rawNumbers (rest.map Raw.num) with
        | Except.error e => Except.error e
        | Except.ok qs => Except.ok (q2 :: qs)) = Except.ok (q :: rest)
    rw [ih]
    rfl

theorem buildCoordinates_roundtrip (c : Coordinates) (h : validCoord c = true) :
    buildCoordinates (coordsRaw c) = .ok c := by
  obtain ⟨hlen, -, -, -, -⟩ := validCoord_parts c h
  have hsize : ¬((c.map Raw.num).length ≠ coordsMinLen ∧ (c.map Raw.num).length ≠ coordsMaxLen) := by
    rw [List.length_map]
    simp only [coordsMinLen, coordsMaxLen]
    rintro ⟨h2, h3⟩
    rcases hlen with hl | hl <;> simp_all
  show (if (c.map Raw.num).length ≠ coordsMinLen ∧ (c.map Raw.num).length ≠ coordsMaxLen
      then (Except.error GeoErr.CoordinatesSize : Except GeoErr Coordinates)
      else match rawNumbers (c.map Raw.num) with
        | Except.error e => Except.error e
        | Except.ok slice => NewCoordinates slice) = Except.ok c
  rw [if_neg hsize, rawNumbers_map]
  exact NewCoordinates_roundtrip c h

theorem pointBuild_roundtrip (c : Coordinates) (h : validCoord c = true) :
    pointBuild (coordsRaw c) = .ok c := by
  show buildCoordinates (Raw.arr (c.map Raw.num)) = Except.ok c
  exact buildCoordinates_roundtrip c h

theorem verticesBuild_roundtrip (vs : Vertices) (h : ∀ c ∈ vs, validCoord c = true) :
    verticesBuild (vs.map coordsRaw) = .ok vs := by
  induction vs with
  | nil => rfl
  | cons c rest ih =>
    show (match pointBuild (coordsRaw c) with
      | Except.error e => (Except.error e : Except GeoErr Vertices)
      | Except.ok c2 =>
        match verticesBuild (rest.map coordsRaw) with
        | Except.error e => Except.error e
        | Except.ok vs2 => Except.ok (c2 :: vs2)) = Except.ok (c :: rest)
    rw [pointBuild_roundtrip c (h c (by simp)), ih (fun x hx => h x (by simp [hx]))]

theorem lineStringBuild_roundtrip (vs : Vertices) (hlen : 2 ≤ vs.length)
    (h : ∀ c ∈ vs, validCoord c = true) :
    lineStringBuild (verticesRaw vs) = .ok vs := by
  have hsz : ¬((vs.map coordsRaw).length < LineStringMinimumSize) := by
    rw [List.length_map]
    unfold LineStringMinimumSize
    omega
  show (if (vs.map coordsRaw).length < LineStringMinimumSize
      then (Except.error GeoErr.LineStringTooShort : Except GeoErr Vertices)
      else verticesBuild (vs.map coordsRaw)) = Except.ok vs
  rw [if_neg hsz]
  exact verticesBuild_roundtrip vs h

theorem multiPointBuild_roundtrip (vs : Vertices) (h : ∀ c ∈ vs, validCoord c = true) :
    multiPointBuild (verticesRaw vs) = .ok vs := by
  show verticesBuild (vs.map coordsRaw) = Except.ok vs
  exact verticesBuild_roundtrip vs h

theorem segmentsBuild_roundtrip (segs : Segments)
    (h : ∀ s ∈ segs, 2 ≤ s.length ∧ ∀ c ∈ s, validCoord c = true) :
    segmentsBuild (segs.map verticesRaw) = .ok segs := by
  induction segs with
  | nil => rfl
  | cons s rest ih =>
    show (match lineStringBuild (verticesRaw s) with
      | Except.error e => (Except.error e : Except GeoErr Segments)
      | Except.ok seg =>
        match segmentsBuild (rest.map verticesRaw) with
        | Except.error e => Except.error e
        | Except.ok segs2 => Except.ok (seg :: segs2)) = Except.ok (s :: rest)
    rw [lineStringBuild_roundtrip s (h s (by simp)).1 (h s (by simp)).2,
      ih (fun x hx => h x (by simp [hx]))]

theorem multiLineStringBuild_roundtrip (segs : Segments) (hne : segs ≠ [])
    (h : ∀ s ∈ segs, 2 ≤ s.length ∧ ∀ c ∈ s, validCoord c = true) :
    multiLineStringBuild (.arr (segs.map verticesRaw)) = .ok segs := by
  have hsz : ¬((segs.map verticesRaw).length = 0) := by
    rw [List.length_map]
    intro hx
    exact hne (List.length_eq_zero.mp hx)
  show (if (segs.map verticesRaw).length = 0
      then (Except.error GeoErr.MultiLineStringTooShort : Except GeoErr Segments)
      else segmentsBuild (segs.map verticesRaw)) = Except.ok segs
  rw [if_neg hsz]
  exact segmentsBuild_roundtrip segs h

theorem ringVertices_roundtrip (ring : Vertices) (h : ∀ c ∈ ring, validCoord c = true) :
    ringVertices (ring.map coordsRaw) = .ok ring := by
  induction ring with
  | nil => rfl
  | cons c rest ih =>
    show (match buildCoordinates (coordsRaw c) with
      | Except.error e => (Except.error e : Except GeoErr Vertices)
      | Except.ok c2 =>
        match ringVertices (rest.map coordsRaw) with
        | Except.error e => Except.error e
        | Except.ok vs => Except.ok (c2 :: vs)) = Except.ok (c :: rest)
    rw [buildCoordinates_roundtrip c (h c (by simp)), ih (fun x hx => h x (by simp [hx]))]

theorem NewLinearRing_roundtrip (r : LinearRing) (h1 : HasValidSize r = true)
    (h2 : IsClosed r = true) : NewLinearRing r = .ok r := by
  simp [NewLinearRing, h1, h2]

theorem ringBuild_roundtrip (r : LinearRing) (h : validRing r = true) :
    ringBuild (verticesRaw r) = .ok r := by
  simp only [validRing, Bool.and_eq_true, List.all_eq_true] at h
  show (match ringVertices (r.map coordsRaw) with
    | Except.error e => (Except.error e : Except GeoErr LinearRing)
    | Except.ok ring => NewLinearRing ring) = Except.ok r
  rw [ringVertices_roundtrip r h.2]
  exact NewLinearRing_roundtrip r h.1.1 h.1.2

theorem ringsBuild_roundtrip (rings : LinearRings) (h : ∀ r ∈ rings, validRing r = true) :
    ringsBuild (rings.map verticesRaw) = .ok rings := by
  induction rings with
  | nil => rfl
  | cons r rest ih =>
    show (match ringBuild (verticesRaw r) with
      | Except.error e => (Except.error e : Except GeoErr LinearRings)
      | Except.ok ring =>
        match ringsBuild (rest.map verticesRaw) with
        | Except.error e => Except.error e
        | Except.ok rings2 => Except.ok (ring :: rings2)) = Except.ok (r :: rest)
    rw [ringBuild_roundtrip r (h r (by simp)), ih (fun x hx => h x (by simp [hx]))]

theorem ensureOrientation_of_normalized (rings : LinearRings)
    (h : normalizedGroup rings = true) : ensureOrientation rings = rings := by
  cases rings with
  | nil => rfl
  | cons r0 rest =>
    simp only [normalizedGroup, Bool.and_eq_true, List.all_eq_true] at h
    show EnsureOrientation true r0 :: rest.map (EnsureOrientation false) = r0 :: rest
    rw [ensureOrientation_fixed_true r0 h.1]
    have hrest : ∀ x ∈ rest, EnsureOrientation false x = x := by
      intro x hx
      exact ensureOrientation_fixed_false x (by simpa using h.2 x hx)
    rw [(List.map_congr_left hrest).trans (List.map_id rest)]

theorem polygonBuild_roundtrip (rings : LinearRings) (h : validGroup rings = true) :
    polygonBuild (.arr (rings.map verticesRaw)) = .ok rings := by
  simp only [validGroup, Bool.and_eq_true, List.all_eq_true, bne_iff_ne, ne_eq] at h
  show (match ringsBuild (rings.map verticesRaw) with
    | Except.error e => (Except.error e : Except GeoErr LinearRings)
    | Except.ok rings2 =>
      if rings2.length = 0 then Except.error GeoErr.PolygonLinearRingCount
      else Except.ok (ensureOrientation rings2)) = Except.ok rings
  rw [ringsBuild_roundtrip rings h.1.2]
  show (if rings.length = 0 then (Except.error GeoErr.PolygonLinearRingCount : Except GeoErr LinearRings)
    else Except.ok (ensureOrientation rings)) = Except.ok rings
  rw [if_neg h.1.1, ensureOrientation_of_normalized rings h.2]

theorem polygonGroupsBuild_roundtrip (rs : List LinearRings)
    (h : ∀ g ∈ rs, validGroup g = true) :
    polygonGroupsBuild (rs.map (fun rings => Raw.arr (rings.map verticesRaw))) = .ok rs := by
  induction rs with
  | nil => rfl
  | cons g rest ih =>
    show (match polygonBuild (Raw.arr (g.map verticesRaw)) with
      | Except.error e => (Except.error e : Except GeoErr (List LinearRings))
      | Except.ok g2 =>
        match polygonGroupsBuild (rest.map (fun rings => Raw.arr (rings.map verticesRaw))) with
        | Except.error e => Except.error e
        | Except.ok gs => Except.ok (g2 :: gs)) = Except.ok (g :: rest)
    rw [polygonBuild_roundtrip g (h g (by simp)), ih (fun x hx => h x (by simp [hx]))]

mutual

theorem decodeEncodeAux (g : Geom) (h : validGeom g = true) :
    decodeGeom (encodeGeom g) = .ok g := by
  cases g with
  | point c =>
    show dispatchGeom "Point" (coordsRaw c) [] = Except.ok (Geom.point c)
    unfold dispatchGeom
    rw [if_pos rfl, pointBuild_roundtrip c (by simpa [validGeom] using h)]
  | lineString vs =>
    simp only [validGeom, Bool.and_eq_true, List.all_eq_true, decide_eq_true_eq] at h
    show dispatchGeom "LineString" (verticesRaw vs) [] = Except.ok (Geom.lineString vs)
    unfold dispatchGeom
    rw [if_neg (by decide), if_pos rfl, lineStringBuild_roundtrip vs h.1 h.2]
  | multiPoint vs =>
    simp only [validGeom, List.all_eq_true] at h
    show dispatchGeom "MultiPoint" (verticesRaw vs) [] = Except.ok (Geom.multiPoint vs)
    unfold dispatchGeom
    rw [if_neg (by decide), if_neg (by decide), if_pos rfl, multiPointBuild_roundtrip vs h]
  | multiLineString segs =>
    simp only [validGeom, Bool.and_eq_true, List.all_eq_true, bne_iff_ne, ne_eq,
      decide_eq_true_eq] at h
    show dispatchGeom "MultiLineString" (Raw.arr (segs.map verticesRaw)) []
        = Except.ok (Geom.multiLineString segs)
    unfold dispatchGeom
    rw [if_neg (by decide), if_neg (by decide), if_neg (by decide), if_pos rfl,
      multiLineStringBuild_roundtrip segs (by simpa using h.1) h.2]
  | polygon rings =>
    show dispatchGeom "Polygon" (Raw.arr (rings.map verticesRaw)) []
        = Except.ok (Geom.polygon rings)
    unfold dispatchGeom
    rw [if_neg (by decide), if_neg (by decide), if_neg (by decide), if_neg (by decide),
      if_pos rfl, polygonBuild_roundtrip rings (by simpa [validGeom] using h)]
  | multiPolygon rs =>
    simp only [validGeom, List.all_eq_true] at h
    show dispatchGeom "MultiPolygon"
        (Raw.arr (rs.map (fun rings => Raw.arr (rings.map verticesRaw)))) []
        = Except.ok (Geom.multiPolygon rs)
    unfold dispatchGeom
    rw [if_neg (by decide), if_neg (by decide), if_neg (by decide), if_neg (by decide),
      if_neg (by decide), if_pos rfl]
    show (match polygonGroupsBuild (rs.map (fun rings => Raw.arr (rings.map verticesRaw))) with
      | Except.error e => (Except.error e : Except GeoErr Geom)
      | Except.ok x => Except.ok (Geom.multiPolygon x)) = Except.ok (Geom.multiPolygon rs)
    rw [polygonGroupsBuild_roundtrip rs h]
  | collection gs =>
    have hc : validGeomList gs = true := by simpa [validGeom] using h
    show (match decodeGeomList (encodeGeomList gs) with
      | Except.error e => (Except.error e : Except GeoErr Geom)
      | Except.ok children => dispatchGeom "GeometryCollection" Raw.null children)
        = Except.ok (Geom.collection gs)
    rw [decodeEncodeListAux gs hc]
    show dispatchGeom "GeometryCollection" Raw.null gs = Except.ok (Geom.collection gs)
    unfold dispatchGeom
    rw [if_neg (by decide), if_neg (by decide), if_neg (by decide), if_neg (by decide),
      if_neg (by decide), if_neg (by decide), if_pos rfl]

theorem decodeEncodeListAux (gs : List Geom) (h : validGeomList gs = true) :
    decodeGeomList (encodeGeomList gs) = .ok gs := by
  cases gs with
  | nil => rfl
  | cons g rest =>
    simp only [validGeomList, Bool.and_eq_true] at h
    show (match decodeGeom (encodeGeom g) with
      | Except.error e => (Except.error e : Except GeoErr (List Geom))
      | Except.ok g2 =>
        match decodeGeomList (encodeGeomList rest) with
        | Except.error e => Except.error e
        | Except.ok gs2 => Except.ok (g2 :: gs2)) = Except.ok (g :: rest)
    rw [decodeEncodeAux g h.1, decodeEncodeListAux rest h.2]

end

/-- C2, amended. Decoding the encoding of a geometry reproduces it exactly for
every geometry whose coordinates have arity 2 or 3 with in-range
longitude/latitude, whose (multi)line strings meet the minimum sizes, and
whose polygon ring groups are nonempty, made of valid closed rings, and
already normalized with a strictly counterclockwise outer ring — which is how
every constructor and the decode path leave them except for zero-signed-area
outer rings. (For a constructible polygon whose outer ring has zero signed
area the round trip reverses that ring; see the counterexample.) -/
theorem decode_encode_roundtrip (g : Geom) (h : validGeom g = true) :
    decodeGeom (encodeGeom g) = .ok g :=
  decodeEncodeAux g h

/-- Witness for the amended C2 on a collection holding a point and a polygon. -/
theorem decode_encode_roundtrip_witness :
    validGeom (.collection [.point [1, 2], .polygon [ccwSquare]]) = true
    ∧ decodeGeom (encodeGeom (.collection [.point [1, 2], .polygon [ccwSquare]]))
        = .ok (.collection [.point [1, 2], .polygon [ccwSquare]]) :=
  ⟨by with_unfolding_all decide,
    decode_encode_roundtrip _ (by with_unfolding_all decide)⟩

/-- Counterexample to C2 as stated: the polygon built by `NewPolygon` from the
bowtie ring does not round-trip — decoding its encoding reverses the
zero-signed-area outer ring again. -/
theorem decode_encode_roundtrip_cex :
    NewPolygon [bowtieRing] = .ok ⟨[bowtieRingRev]⟩
    ∧ decodeGeom (encodeGeom (.polygon [bowtieRingRev]))
        ≠ .ok (.polygon [bowtieRingRev]) := by
  constructor
  · with_unfolding_all rfl
  · intro hEq
    have h2 : decodeGeom (encodeGeom (.polygon [bowtieRingRev]))
        = .ok (.polygon [bowtieRing]) := by
      with_unfolding_all rfl
    rw [h2] at hEq
    injection hEq with h3
    injection h3 with h4
    exact absurd h4 (by with_unfolding_all decide)

end GeoJson
